import Mathlib

/-!
Verification of the aligned-allocation subsystem
(`mimalloc/src/alloc-aligned.c`) against its design specification.

The C translation unit is embedded shallowly: every function of the file
becomes a Lean definition with the same name and the same control flow.
Pointers are addresses (`Nat`), byte memory is `Nat → Nat`, a fallible
C call returning `NULL` on failure becomes `Option`.  The base-allocator
collaborators (declared in headers, outside this translation unit) are an
abstract `Base` structure; the geometry constants from the headers are an
abstract `Config`.  Pointer arithmetic `(x & (alignment-1))` is performed
on `Nat` exactly as in the source; for a power-of-two alignment this
agrees with the C `uintptr_t` arithmetic because wrap-around modulo
`2^64` does not change residues modulo a dividing power of two.
-/

namespace MimallocAligned

/-- Byte-addressable memory: address to byte value. -/
abbrev Mem := Nat → Nat

/-- Modelled from the spec: the compile-time geometry constants consumed by
`alloc-aligned.c` but defined in headers outside this translation unit
(`MI_PADDING_SIZE`, `MI_PADDING`, `MI_MAX_ALIGN_SIZE`, `MI_SMALL_SIZE_MAX`,
`MI_MEDIUM_OBJ_SIZE_MAX`, `MI_ALIGNMENT_MAX`, `PTRDIFF_MAX`,
`sizeof(uintptr_t)`, `SIZE_MAX`).  The spec (§9) directs that these be
modelled as configuration-time constants passed into the core. -/
structure Config where
  padding_size : Nat
  padding_enabled : Bool
  max_align_size : Nat
  small_size_max : Nat
  medium_obj_size_max : Nat
  alignment_max : Nat
  ptrdiff_max : Nat
  intptr_size : Nat
  size_max : Nat

/-- Modelled from the spec (§6, external interfaces): the base-allocator
collaborators consumed by this core, none of which are defined in this
translation unit: `_mi_heap_malloc_zero`, `_mi_heap_malloc_zero_ex`,
the free-list probe `_mi_heap_get_free_small_page(heap, padsize)->free`
(keyed here by `padsize`), `_mi_page_malloc` (on that same page),
`mi_page_usable_block_size(_mi_ptr_page(p))` (keyed by the block address),
`mi_usable_size`, `_mi_ptr_page(p)->is_zero`, `_mi_heap_realloc_zero`,
and `mi_heap_malloc_small`.  Each allocation call takes the memory before
the call and yields the block address and the memory after it; the heap
handle is implicit in the structure. -/
structure Base where
  heap_malloc_zero : Mem → Nat → Bool → Option (Nat × Mem)
  heap_malloc_zero_ex : Mem → Nat → Bool → Nat → Option (Nat × Mem)
  page_free : Nat → Option Nat
  page_malloc : Mem → Nat → Bool → Nat × Mem
  page_usable_block_size : Nat → Nat
  usable_size : Nat → Nat
  page_is_zero : Nat → Bool
  heap_realloc_zero : Mem → Option Nat → Nat → Bool → Option (Nat × Mem)
  heap_malloc_small : Mem → Nat → Option (Nat × Mem)

/-- Embeds `memset(addr, 0, n)` and `_mi_memzero(addr, n)`. -/
def memset0 (m : Mem) (addr n : Nat) : Mem :=
  fun a => if addr ≤ a ∧ a < addr + n then 0 else m a

/-- Embeds `_mi_memcpy_aligned(dst, src, n)`; the regions are disjoint in every use
in this translation unit. -/
def memcpyBytes (m : Mem) (dst src n : Nat) : Mem :=
  fun a => if dst ≤ a ∧ a < dst + n then m (src + (a - dst)) else m a

/-- Embeds `_mi_is_power_of_two(x)`, the header helper used by the source:
`(x & (x-1)) == 0`.  (It is also true at `x = 0`; callers reject zero
separately, as the source does.) -/
def mi_is_power_of_two (x : Nat) : Bool := (x &&& (x - 1)) == 0

variable (c : Config) (b : Base)

/-- Embeds `mi_heap_malloc_zero_aligned_at_fallback` (alloc-aligned.c:18-91):
natural-fit delegation, then the huge-alignment dedicated-page path or the
over-allocate path, then carving the aligned sub-block and the conditional
zeroing of the carved region.  `mi_page_set_has_aligned` and the tracking
hooks are side-effect-only collaborator notifications with no effect on
memory contents or the result and are not modelled. -/
def mi_heap_malloc_zero_aligned_at_fallback (mem : Mem) (size alignment offset : Nat)
    (zero : Bool) : Option (Nat × Mem) :=
  let align_mask := alignment - 1
  let padsize := size + c.padding_size
  if offset = 0 ∧ alignment ≤ padsize ∧ padsize ≤ c.medium_obj_size_max ∧
      padsize &&& align_mask = 0 then
    b.heap_malloc_zero mem size zero
  else
    let alloc :=
      if c.alignment_max < alignment then
        if offset ≠ 0 then none
        else
          let oversize := if size ≤ c.small_size_max then c.small_size_max + 1 else size
          b.heap_malloc_zero_ex mem oversize false alignment
      else
        let oversize := size + alignment - 1
        b.heap_malloc_zero mem oversize zero
    match alloc with
    | none => none
    | some (p, m1) =>
      let poffset := (p + offset) &&& align_mask
      let adjust := if poffset = 0 then 0 else alignment - poffset
      let aligned_p := p + adjust
      let m2 :=
        if zero ∧ c.alignment_max < alignment then
          let diff : Int := (aligned_p : Int) - (p : Int)
          let zsize : Int := (b.page_usable_block_size p : Int) - diff -
            (c.padding_size : Int) -
            (if c.padding_enabled then (c.max_align_size : Int) else 0)
          if 0 < zsize then memset0 m1 aligned_p zsize.toNat else m1
        else m1
      some (aligned_p, m2)

/-- Embeds `mi_heap_malloc_zero_aligned_at` (alloc-aligned.c:94-139): alignment and
size validation, the small-object free-block probe, then the fallback. -/
def mi_heap_malloc_zero_aligned_at (mem : Mem) (size alignment offset : Nat)
    (zero : Bool) : Option (Nat × Mem) :=
  if alignment = 0 ∨ mi_is_power_of_two alignment = false then none
  else if c.ptrdiff_max < size then none
  else
    let align_mask := alignment - 1
    let padsize := size + c.padding_size
    if padsize ≤ c.small_size_max ∧ alignment ≤ padsize then
      match b.page_free padsize with
      | some fp =>
        if (fp + offset) &&& align_mask = 0 then
          some (b.page_malloc mem padsize zero)
        else
          mi_heap_malloc_zero_aligned_at_fallback c b mem size alignment offset zero
      | none => mi_heap_malloc_zero_aligned_at_fallback c b mem size alignment offset zero
    else
      mi_heap_malloc_zero_aligned_at_fallback c b mem size alignment offset zero

/-- Embeds `mi_heap_malloc_aligned_at` (alloc-aligned.c:146-148). -/
def mi_heap_malloc_aligned_at (mem : Mem) (size alignment offset : Nat) :
    Option (Nat × Mem) :=
  mi_heap_malloc_zero_aligned_at c b mem size alignment offset false

/-- Embeds `mi_heap_malloc_aligned` (alloc-aligned.c:150-176), covering both the
`MI_PADDING` and the padding-free preprocessor variants via
`c.padding_enabled`. -/
def mi_heap_malloc_aligned (mem : Mem) (size alignment : Nat) : Option (Nat × Mem) :=
  if c.padding_enabled then
    if (alignment = c.intptr_size ∨
        (alignment = c.max_align_size ∧ c.max_align_size / 2 < size)) ∧
        size ≤ c.small_size_max then
      b.heap_malloc_small mem size
    else
      mi_heap_malloc_aligned_at c b mem size alignment 0
  else
    if mi_is_power_of_two alignment = false then none
    else if mi_is_power_of_two size = true ∧ alignment ≤ size ∧ size ≤ c.small_size_max then
      b.heap_malloc_small mem size
    else
      mi_heap_malloc_aligned_at c b mem size alignment 0

/-- Embeds `mi_heap_zalloc_aligned_at` (alloc-aligned.c:182-184). -/
def mi_heap_zalloc_aligned_at (mem : Mem) (size alignment offset : Nat) :
    Option (Nat × Mem) :=
  mi_heap_malloc_zero_aligned_at c b mem size alignment offset true

/-- Embeds `mi_heap_zalloc_aligned` (alloc-aligned.c:186-188). -/
def mi_heap_zalloc_aligned (mem : Mem) (size alignment : Nat) : Option (Nat × Mem) :=
  mi_heap_zalloc_aligned_at c b mem size alignment 0

/-- Modelled from the spec: `mi_count_size_overflow(count, size, &total)`,
an internal-header helper not in this translation unit — true exactly when
`count * size` overflows the size representation (§4.4: "reject with an
overflow failure before invoking any allocation logic if the multiplication
would overflow"); the second component is the product (its wrapped value on
overflow, never used by the callers in that case). -/
def mi_count_size_overflow (count size : Nat) : Bool × Nat :=
  if c.size_max < count * size then (true, count * size % (c.size_max + 1))
  else (false, count * size)

/-- Embeds `mi_heap_calloc_aligned_at` (alloc-aligned.c:190-194). -/
def mi_heap_calloc_aligned_at (mem : Mem) (count size alignment offset : Nat) :
    Option (Nat × Mem) :=
  let ov := mi_count_size_overflow c count size
  if ov.1 then none
  else mi_heap_zalloc_aligned_at c b mem ov.2 alignment offset

/-- Embeds `mi_heap_calloc_aligned` (alloc-aligned.c:196-198). -/
def mi_heap_calloc_aligned (mem : Mem) (count size alignment : Nat) :
    Option (Nat × Mem) :=
  mi_heap_calloc_aligned_at c b mem count size alignment 0

/-- Embeds `mi_malloc_aligned_at` (alloc-aligned.c:200-202): default-heap wrapper;
the heap handle is implicit in `Base`. -/
def mi_malloc_aligned_at (mem : Mem) (size alignment offset : Nat) :
    Option (Nat × Mem) :=
  mi_heap_malloc_aligned_at c b mem size alignment offset

/-- Embeds `mi_zalloc_aligned_at` (alloc-aligned.c:212-214): default-heap wrapper. -/
def mi_zalloc_aligned_at (mem : Mem) (size alignment offset : Nat) :
    Option (Nat × Mem) :=
  mi_heap_zalloc_aligned_at c b mem size alignment offset

/-- Embeds `mi_calloc_aligned_at` (alloc-aligned.c:220-222): default-heap wrapper. -/
def mi_calloc_aligned_at (mem : Mem) (count size alignment offset : Nat) :
    Option (Nat × Mem) :=
  mi_heap_calloc_aligned_at c b mem count size alignment offset

/-- Embeds `mi_calloc_aligned` (alloc-aligned.c:224-226): default-heap wrapper. -/
def mi_calloc_aligned (mem : Mem) (count size alignment : Nat) :
    Option (Nat × Mem) :=
  mi_heap_calloc_aligned c b mem count size alignment

/-- Which branch of the aligned reallocator served the request: delegation
to the unaligned resize primitive, a fresh aligned allocation for a null
pointer, in-place reuse, relocation, or the counted wrappers' overflow
rejection. -/
inductive ReallocPath
  | delegated
  | freshAlloc
  | inPlace
  | reloc
  | rejectedOverflow
  deriving DecidableEq

/-- Observable outcome of an aligned reallocation: returned pointer, memory
after the call, whether this function freed the old pointer via `mi_free`
(alloc-aligned.c:258 — the only `mi_free` call in the translation unit),
and the branch taken. -/
structure ReallocResult where
  ret : Option Nat
  mem : Mem
  freedOld : Bool
  path : ReallocPath

/-- Embeds `mi_heap_realloc_zero_aligned_at` (alloc-aligned.c:233-262). -/
def mi_heap_realloc_zero_aligned_at (mem : Mem) (p : Option Nat)
    (newsize alignment offset : Nat) (zero : Bool) : ReallocResult :=
  if alignment ≤ c.intptr_size then
    match b.heap_realloc_zero mem p newsize zero with
    | none => ⟨none, mem, false, .delegated⟩
    | some (q, m1) => ⟨some q, m1, false, .delegated⟩
  else
    match p with
    | none =>
      match mi_heap_malloc_zero_aligned_at c b mem newsize alignment offset zero with
      | none => ⟨none, mem, false, .freshAlloc⟩
      | some (q, m1) => ⟨some q, m1, false, .freshAlloc⟩
    | some pp =>
      let size := b.usable_size pp
      if newsize ≤ size ∧ size - size / 2 ≤ newsize ∧ (pp + offset) % alignment = 0 then
        ⟨some pp, mem, false, .inPlace⟩
      else
        match mi_heap_malloc_aligned_at c b mem newsize alignment offset with
        | none => ⟨none, mem, false, .reloc⟩
        | some (newp, m1) =>
          let m2 :=
            if zero ∧ size < newsize then
              if b.page_is_zero newp then m1
              else
                let start := if c.intptr_size ≤ size then size - c.intptr_size else 0
                memset0 m1 (newp + start) (newsize - start)
            else m1
          let m3 := memcpyBytes m2 newp pp (if size < newsize then size else newsize)
          ⟨some newp, m3, true, .reloc⟩

/-- Embeds `mi_heap_realloc_zero_aligned` (alloc-aligned.c:264-269): derives the
offset from the previous allocation as `(uintptr_t)p % alignment` (a null
`p` is address 0). -/
def mi_heap_realloc_zero_aligned (mem : Mem) (p : Option Nat)
    (newsize alignment : Nat) (zero : Bool) : ReallocResult :=
  if alignment ≤ c.intptr_size then
    match b.heap_realloc_zero mem p newsize zero with
    | none => ⟨none, mem, false, .delegated⟩
    | some (q, m1) => ⟨some q, m1, false, .delegated⟩
  else
    let offset := (p.getD 0) % alignment
    mi_heap_realloc_zero_aligned_at c b mem p newsize alignment offset zero

/-- Embeds `mi_heap_realloc_aligned_at` (alloc-aligned.c:271-273). -/
def mi_heap_realloc_aligned_at (mem : Mem) (p : Option Nat)
    (newsize alignment offset : Nat) : ReallocResult :=
  mi_heap_realloc_zero_aligned_at c b mem p newsize alignment offset false

/-- Embeds `mi_heap_realloc_aligned` (alloc-aligned.c:275-277). -/
def mi_heap_realloc_aligned (mem : Mem) (p : Option Nat)
    (newsize alignment : Nat) : ReallocResult :=
  mi_heap_realloc_zero_aligned c b mem p newsize alignment false

/-- Embeds `mi_heap_rezalloc_aligned_at` (alloc-aligned.c:279-281). -/
def mi_heap_rezalloc_aligned_at (mem : Mem) (p : Option Nat)
    (newsize alignment offset : Nat) : ReallocResult :=
  mi_heap_realloc_zero_aligned_at c b mem p newsize alignment offset true

/-- Embeds `mi_heap_rezalloc_aligned` (alloc-aligned.c:283-285). -/
def mi_heap_rezalloc_aligned (mem : Mem) (p : Option Nat)
    (newsize alignment : Nat) : ReallocResult :=
  mi_heap_realloc_zero_aligned c b mem p newsize alignment true

/-- Embeds `mi_heap_recalloc_aligned_at` (alloc-aligned.c:287-291). -/
def mi_heap_recalloc_aligned_at (mem : Mem) (p : Option Nat)
    (newcount size alignment offset : Nat) : ReallocResult :=
  let ov := mi_count_size_overflow c newcount size
  if ov.1 then ⟨none, mem, false, .rejectedOverflow⟩
  else mi_heap_rezalloc_aligned_at c b mem p ov.2 alignment offset

/-- Embeds `mi_heap_recalloc_aligned` (alloc-aligned.c:293-297). -/
def mi_heap_recalloc_aligned (mem : Mem) (p : Option Nat)
    (newcount size alignment : Nat) : ReallocResult :=
  let ov := mi_count_size_overflow c newcount size
  if ov.1 then ⟨none, mem, false, .rejectedOverflow⟩
  else mi_heap_rezalloc_aligned c b mem p ov.2 alignment

/-- Embeds `mi_recalloc_aligned_at` (alloc-aligned.c:315-317): default-heap wrapper. -/
def mi_recalloc_aligned_at (mem : Mem) (p : Option Nat)
    (newcount size alignment offset : Nat) : ReallocResult :=
  mi_heap_recalloc_aligned_at c b mem p newcount size alignment offset

/-- Embeds `mi_recalloc_aligned` (alloc-aligned.c:319-321): default-heap wrapper. -/
def mi_recalloc_aligned (mem : Mem) (p : Option Nat)
    (newcount size alignment : Nat) : ReallocResult :=
  mi_heap_recalloc_aligned c b mem p newcount size alignment

/-! ### Arithmetic helper lemmas -/

/-- The source's bit trick: masking with `alignment - 1` is reduction modulo a
power-of-two alignment (comment at alloc-aligned.c:23,118). -/
lemma and_mask_eq_mod (x k : Nat) : x &&& (2 ^ k - 1) = x % 2 ^ k :=
  Nat.and_pow_two_sub_one_eq_mod x k

/-- The helper `_mi_is_power_of_two` accepts every power of two. -/
lemma mi_is_power_of_two_pow (k : Nat) : mi_is_power_of_two (2 ^ k) = true := by
  simp [mi_is_power_of_two, Nat.and_pow_two_sub_one_eq_mod]

/-- Conversely, a nonzero value accepted by the `(x & (x-1)) == 0` test is a
power of two. -/
lemma exists_pow_of_and_pred_eq_zero {x : Nat} (hx : x ≠ 0)
    (h : x &&& (x - 1) = 0) : ∃ k, x = 2 ^ k := by
  refine ⟨x.log2, ?_⟩
  by_contra hne
  have h1 : 2 ^ x.log2 ≤ x := Nat.log2_self_le hx
  have h2 : x < 2 ^ (x.log2 + 1) := Nat.lt_log2_self
  rw [Nat.pow_succ] at h2
  have h1' : 2 ^ x.log2 < x := lt_of_le_of_ne h1 fun e => hne e.symm
  have hx1 : x / 2 ^ x.log2 = 1 := Nat.div_eq_of_lt_le (by omega) (by omega)
  have hx2 : (x - 1) / 2 ^ x.log2 = 1 := Nat.div_eq_of_lt_le (by omega) (by omega)
  have tb1 : x.testBit x.log2 = true := by
    rw [Nat.testBit_to_div_mod, hx1]; rfl
  have tb2 : (x - 1).testBit x.log2 = true := by
    rw [Nat.testBit_to_div_mod, hx2]; rfl
  have tb : (x &&& (x - 1)).testBit x.log2 = true := by
    rw [Nat.testBit_and, tb1, tb2]; rfl
  rw [h, Nat.zero_testBit] at tb
  exact Bool.false_ne_true tb

/-- A value that is no power of two fails the `_mi_is_power_of_two` test. -/
lemma mi_is_power_of_two_eq_false {x : Nat} (hx : x ≠ 0)
    (h : ∀ k, x ≠ 2 ^ k) : mi_is_power_of_two x = false := by
  unfold mi_is_power_of_two
  rw [beq_eq_false_iff_ne]
  intro hand
  obtain ⟨k, hk⟩ := exists_pow_of_and_pred_eq_zero hx hand
  exact h k hk

/-- The carving adjustment restores alignment: adding
`(alignment - (x mod alignment)) mod alignment` to `x` lands on a multiple of
the alignment (alloc-aligned.c:59-62). -/
lemma adjust_mod_eq_zero {q : Nat} (hq : 0 < q) (x : Nat) :
    (x + (if x % q = 0 then 0 else q - x % q)) % q = 0 := by
  split
  · next h0 => simp [h0, Nat.add_mod]
  · next h0 =>
    have hlt : x % q < q := Nat.mod_lt _ hq
    rw [Nat.add_mod]
    have h1 : (q - x % q) % q = q - x % q := Nat.mod_eq_of_lt (by omega)
    rw [h1]
    have h2 : x % q + (q - x % q) = q := by omega
    rw [h2, Nat.mod_self]

/-! ### Core lemmas on the allocation paths -/

/-- Every successful result of the fallback primitive satisfies the alignment
contract `(result + offset) % alignment = 0`, for a power-of-two alignment.
The natural-fit branch needs the base allocator's structural size-class
guarantee `hnat` (the property asserted at alloc-aligned.c:29); the carving
branches are pure arithmetic. -/
lemma fallback_result_aligned {c : Config} {b : Base} {mem : Mem}
    {size k offset : Nat} {zero : Bool} {q : Nat} {m' : Mem}
    (hnat : ∀ q m', b.heap_malloc_zero mem size zero = some (q, m') →
        (size + c.padding_size) % 2 ^ k = 0 → q % 2 ^ k = 0)
    (h : mi_heap_malloc_zero_aligned_at_fallback c b mem size (2 ^ k) offset zero
        = some (q, m')) :
    (q + offset) % 2 ^ k = 0 := by
  simp only [mi_heap_malloc_zero_aligned_at_fallback] at h
  split at h
  · next hfit =>
    obtain ⟨h0, -, -, hmul⟩ := hfit
    rw [and_mask_eq_mod] at hmul
    rw [h0]
    exact hnat q m' h hmul
  · split at h
    · exact absurd h (by simp)
    · next p m1 heq =>
      simp only [Option.some.injEq, Prod.mk.injEq] at h
      obtain ⟨hq, -⟩ := h
      subst hq
      rw [and_mask_eq_mod, Nat.add_right_comm]
      exact adjust_mod_eq_zero (Nat.pos_pow_of_pos k (by omega)) _

/-- Every successful result of `mi_heap_malloc_zero_aligned_at` satisfies the
alignment contract, for a power-of-two alignment.  The small-object probe
path additionally needs `hpm`: `_mi_page_malloc` hands out exactly the probed
free block (the property asserted at alloc-aligned.c:132). -/
lemma malloc_zero_aligned_at_aligned {c : Config} {b : Base} {mem : Mem}
    {size k offset : Nat} {zero : Bool} {q : Nat} {m' : Mem}
    (hnat : ∀ q m', b.heap_malloc_zero mem size zero = some (q, m') →
        (size + c.padding_size) % 2 ^ k = 0 → q % 2 ^ k = 0)
    (hpm : ∀ m z fp, b.page_free (size + c.padding_size) = some fp →
        (b.page_malloc m (size + c.padding_size) z).1 = fp)
    (h : mi_heap_malloc_zero_aligned_at c b mem size (2 ^ k) offset zero
        = some (q, m')) :
    (q + offset) % 2 ^ k = 0 := by
  simp only [mi_heap_malloc_zero_aligned_at] at h
  split at h
  · exact absurd h (by simp)
  · split at h
    · exact absurd h (by simp)
    · split at h
      · split at h
        · next fp hfp =>
          split at h
          · next hal =>
            simp only [Option.some.injEq] at h
            have hfst := congrArg Prod.fst h
            simp only at hfst
            rw [and_mask_eq_mod] at hal
            rw [← hfst, hpm mem zero fp hfp]
            exact hal
          · exact fallback_result_aligned hnat h
        · exact fallback_result_aligned hnat h
      · exact fallback_result_aligned hnat h

/-- A byte inside a `memset0` range reads as zero. -/
lemma memset0_zero_in {m : Mem} {addr n a : Nat} (h1 : addr ≤ a) (h2 : a < addr + n) :
    memset0 m addr n a = 0 := by
  simp only [memset0]
  rw [if_pos ⟨h1, h2⟩]

/-- A byte outside a `memset0` range is unchanged. -/
lemma memset0_outside {m : Mem} {addr n a : Nat} (h : ¬(addr ≤ a ∧ a < addr + n)) :
    memset0 m addr n a = m a := by
  simp only [memset0]
  rw [if_neg h]

/-- A byte inside a `memcpyBytes` destination range reads the source byte. -/
lemma memcpyBytes_in {m : Mem} {dst src n a : Nat} (h1 : dst ≤ a) (h2 : a < dst + n) :
    memcpyBytes m dst src n a = m (src + (a - dst)) := by
  simp only [memcpyBytes]
  rw [if_pos ⟨h1, h2⟩]

/-- When the fallback primitive is called with `zero = true`, every byte of
the returned region `[q, q+size)` is zero: the natural-fit and over-allocate
branches inherit zeroing from the base allocator (`hzhm`), and the
huge-alignment branch zeroes the carved region itself, which suffices given
the dedicated page's usable-size guarantee `hus` (the property asserted at
alloc-aligned.c:67). -/
lemma fallback_zero_bytes {c : Config} {b : Base} {mem : Mem}
    {size k offset : Nat} {q : Nat} {m' : Mem}
    (hzhm : ∀ m sz q m', b.heap_malloc_zero m sz true = some (q, m') →
        ∀ a, q ≤ a → a < q + sz → m' a = 0)
    (hus : ∀ pp, 2 ^ k - 1 + size + c.padding_size +
        (if c.padding_enabled then c.max_align_size else 0) ≤
        b.page_usable_block_size pp)
    (h : mi_heap_malloc_zero_aligned_at_fallback c b mem size (2 ^ k) offset true
        = some (q, m')) :
    ∀ a, q ≤ a → a < q + size → m' a = 0 := by
  simp only [mi_heap_malloc_zero_aligned_at_fallback] at h
  split at h
  · exact hzhm mem size q m' h
  · by_cases hbig : c.alignment_max < 2 ^ k
    · rw [if_pos hbig] at h
      by_cases hoff : offset ≠ 0
      · rw [if_pos hoff] at h
        exact absurd h (by simp)
      · rw [if_neg hoff] at h
        cases hex : b.heap_malloc_zero_ex mem
            (if size ≤ c.small_size_max then c.small_size_max + 1 else size)
            false (2 ^ k) with
        | none => rw [hex] at h; exact absurd h (by simp)
        | some pm =>
          obtain ⟨p, m1⟩ := pm
          rw [hex] at h
          simp only [Option.some.injEq, Prod.mk.injEq] at h
          obtain ⟨hq, hm⟩ := h
          rw [if_pos ⟨trivial, hbig⟩] at hm
          set po := (p + offset) &&& (2 ^ k - 1) with hpo
          have hpole : po ≤ 2 ^ k - 1 := Nat.and_le_right
          have hA : (if po = 0 then 0 else 2 ^ k - po) ≤ 2 ^ k - 1 := by
            split <;> omega
          intro a ha1 ha2
          have hsz : 0 < size := by omega
          have husp := hus p
          set pad2 : Nat := if c.padding_enabled then c.max_align_size else 0 with hpad2
          set adj := (if po = 0 then 0 else 2 ^ k - po) with hadj
          have hcast : ((↑(p + adj) : Int) - (↑p : Int)) = (adj : Int) := by
            push_cast
            ring
          rw [hcast] at hm
          have hzpos : (0 : Int) < (↑(b.page_usable_block_size p) : Int) - (adj : Int)
              - (↑c.padding_size : Int) - (if c.padding_enabled then (↑c.max_align_size : Int) else 0) := by
            have : (if c.padding_enabled then (↑c.max_align_size : Int) else 0) = (pad2 : Int) := by
              rw [hpad2]
              split <;> simp
            rw [this]
            omega
          rw [if_pos hzpos] at hm
          rw [← hm]
          apply memset0_zero_in
          · omega
          · have : (if c.padding_enabled then (↑c.max_align_size : Int) else 0) = (pad2 : Int) := by
              rw [hpad2]
              split <;> simp
            rw [this]
            omega
    · rw [if_neg hbig] at h
      cases hov : b.heap_malloc_zero mem (size + 2 ^ k - 1) true with
      | none => rw [hov] at h; exact absurd h (by simp)
      | some pm =>
        obtain ⟨p, m1⟩ := pm
        rw [hov] at h
        simp only [Option.some.injEq, Prod.mk.injEq] at h
        obtain ⟨hq, hm⟩ := h
        rw [if_neg (fun hc => hbig hc.2)] at hm
        set po := (p + offset) &&& (2 ^ k - 1) with hpo
        have hpole : po ≤ 2 ^ k - 1 := Nat.and_le_right
        have hA : (if po = 0 then 0 else 2 ^ k - po) ≤ 2 ^ k - 1 := by
          split <;> omega
        intro a ha1 ha2
        rw [← hm]
        have hk1 : 1 ≤ 2 ^ k := Nat.one_le_two_pow
        exact hzhm mem (size + 2 ^ k - 1) p m1 hov a (by omega) (by omega)

/-- When `mi_heap_malloc_zero_aligned_at` is called with `zero = true`, every
byte of the returned region `[q, q+size)` is zero; the probe path needs the
`_mi_page_malloc` zeroing contract `hzpm`. -/
lemma malloc_zero_aligned_at_zero_bytes {c : Config} {b : Base} {mem : Mem}
    {size k offset : Nat} {q : Nat} {m' : Mem}
    (hzhm : ∀ m sz q m', b.heap_malloc_zero m sz true = some (q, m') →
        ∀ a, q ≤ a → a < q + sz → m' a = 0)
    (hzpm : ∀ m ps a, (b.page_malloc m ps true).1 ≤ a →
        a < (b.page_malloc m ps true).1 + (ps - c.padding_size) →
        (b.page_malloc m ps true).2 a = 0)
    (hus : ∀ pp, 2 ^ k - 1 + size + c.padding_size +
        (if c.padding_enabled then c.max_align_size else 0) ≤
        b.page_usable_block_size pp)
    (h : mi_heap_malloc_zero_aligned_at c b mem size (2 ^ k) offset true
        = some (q, m')) :
    ∀ a, q ≤ a → a < q + size → m' a = 0 := by
  simp only [mi_heap_malloc_zero_aligned_at] at h
  split at h
  · exact absurd h (by simp)
  · split at h
    · exact absurd h (by simp)
    · split at h
      · split at h
        · next fp hfp =>
          split at h
          · simp only [Option.some.injEq] at h
            have hfst := congrArg Prod.fst h
            have hsnd := congrArg Prod.snd h
            simp only at hfst hsnd
            intro a ha1 ha2
            rw [← hsnd]
            apply hzpm mem (size + c.padding_size) a
            · rw [hfst]; exact ha1
            · rw [hfst]
              have : size + c.padding_size - c.padding_size = size := by omega
              rw [this]
              exact ha2
          · exact fallback_zero_bytes hzhm hus h
        · exact fallback_zero_bytes hzhm hus h
      · exact fallback_zero_bytes hzhm hus h

/-! ### Concrete configuration and base allocators used by witnesses -/

/-- A concrete 64-bit geometry (release build: no padding). -/
def cfg0 : Config where
  padding_size := 0
  padding_enabled := false
  max_align_size := 16
  small_size_max := 128
  medium_obj_size_max := 1024
  alignment_max := 2 ^ 24
  ptrdiff_max := 2 ^ 63 - 1
  intptr_size := 8
  size_max := 2 ^ 64 - 1

/-- A concrete memory with nonzero contents. -/
def memA : Mem := fun a => a % 251

/-- A concrete base allocator: every allocation returns address 0, zeroing on
request; the small free-list probe always misses; blocks report usable size
64; the dedicated-page usable size is ample. -/
def baseW : Base where
  heap_malloc_zero := fun m sz z => some (0, if z then memset0 m 0 sz else m)
  heap_malloc_zero_ex := fun m _ _ _ => some (0, m)
  page_free := fun _ => none
  page_malloc := fun m ps z => (0, if z then memset0 m 0 ps else m)
  page_usable_block_size := fun _ => 2 ^ 40
  usable_size := fun _ => 64
  page_is_zero := fun _ => false
  heap_realloc_zero := fun m p _ _ => some (p.getD 0, m)
  heap_malloc_small := fun m _ => some (0, m)

/-- A base allocator whose small free-list probe hits an aligned block at
address 40 for padded size 16, while the normal size-class allocator returns
address 1000. -/
def baseC5 : Base :=
  { baseW with
    page_free := fun ps => if ps = 16 then some 40 else none
    page_malloc := fun m _ _ => (40, m)
    heap_malloc_zero := fun m _ _ => some (1000, m) }

/-- A base allocator reporting usable size 100 for every block, so a shrink
to a tenth of the size forces relocation. -/
def baseC9 : Base :=
  { baseW with usable_size := fun _ => 100 }

/-! ### The claims -/

/-- Claim C1: for every successful aligned allocation through
`mi_heap_malloc_zero_aligned_at` — the primitive that every allocate-aligned
entry point funnels through, containing the small-object probe fast path,
the natural-fit path, the over-allocate fallback, and the huge-alignment
dedicated-page path — the returned pointer satisfies
`(result + offset) % alignment = 0`, for every power-of-two alignment
`2 ^ k` and every offset.  `hnat` is the base allocator's structural
size-class alignment guarantee used by the natural-fit path (the property
asserted at alloc-aligned.c:29); `hpm` states that `_mi_page_malloc` hands
out exactly the probed free block (alloc-aligned.c:132). -/
theorem claim_C1 (c : Config) (b : Base) (mem : Mem) (size k offset : Nat) (zero : Bool)
    (hnat : ∀ q m', b.heap_malloc_zero mem size zero = some (q, m') →
        (size + c.padding_size) % 2 ^ k = 0 → q % 2 ^ k = 0)
    (hpm : ∀ m z fp, b.page_free (size + c.padding_size) = some fp →
        (b.page_malloc m (size + c.padding_size) z).1 = fp) :
    ∀ q m', mi_heap_malloc_zero_aligned_at c b mem size (2 ^ k) offset zero = some (q, m') →
      (q + offset) % 2 ^ k = 0 :=
  fun _ _ h => malloc_zero_aligned_at_aligned hnat hpm h

/-- Witness for C1: size 8, alignment `2^3`, offset 0 on the concrete base. -/
theorem claim_C1_witness : (0 + 0) % 2 ^ 3 = 0 :=
  claim_C1 cfg0 baseW memA 8 3 0 false
    (fun q m' h _ => by
      simp only [baseW, Option.some.injEq, Prod.mk.injEq] at h
      omega)
    (fun m z fp h => by simp [baseW] at h)
    0 memA rfl

/-- Claim C2: for every successful allocation with `zero = true` through
`mi_heap_malloc_zero_aligned_at`, every byte in `[result, result + size)`
reads as zero immediately afterwards — on the small-object fast path (whose
zeroing contract is `hzpm`), on the natural-fit and over-allocate fallback
paths (zeroing contract `hzhm` of the base allocator), and on the
huge-alignment dedicated-page path, where the block is allocated unzeroed
and the carved region is zeroed afterwards (`hus` is the dedicated page's
usable-size guarantee asserted at alloc-aligned.c:67). -/
theorem claim_C2 (c : Config) (b : Base) (mem : Mem) (size k offset : Nat)
    (hzhm : ∀ m sz q m', b.heap_malloc_zero m sz true = some (q, m') →
        ∀ a, q ≤ a → a < q + sz → m' a = 0)
    (hzpm : ∀ m ps a, (b.page_malloc m ps true).1 ≤ a →
        a < (b.page_malloc m ps true).1 + (ps - c.padding_size) →
        (b.page_malloc m ps true).2 a = 0)
    (hus : ∀ pp, 2 ^ k - 1 + size + c.padding_size +
        (if c.padding_enabled then c.max_align_size else 0) ≤
        b.page_usable_block_size pp) :
    ∀ q m', mi_heap_malloc_zero_aligned_at c b mem size (2 ^ k) offset true = some (q, m') →
      ∀ a, q ≤ a → a < q + size → m' a = 0 :=
  fun _ _ h => malloc_zero_aligned_at_zero_bytes hzhm hzpm hus h

/-- Witness for C2: the byte at address 3 of a zeroed 8-byte allocation. -/
theorem claim_C2_witness : memset0 memA 0 8 3 = 0 :=
  claim_C2 cfg0 baseW memA 8 3 0
    (fun m sz q m' h a h1 h2 => by
      simp only [baseW, Option.some.injEq, Prod.mk.injEq, if_pos] at h
      obtain ⟨hq, hm⟩ := h
      rw [← hm]
      exact memset0_zero_in (by omega) (by omega))
    (fun m ps a h1 h2 => by
      simp only [baseW, if_pos] at h1 h2 ⊢
      exact memset0_zero_in (by omega) (by omega))
    (fun pp => by norm_num [baseW, cfg0])
    0 (memset0 memA 0 8) rfl 3 (by omega) (by omega)

/-- Claim C3: for every aligned reallocation with alignment above the
natural pointer alignment and a non-null existing pointer, the existing
block is returned unchanged (no copy, no new allocation, no free) exactly
when all three hold: `newsize ≤ usable`, `newsize ≥ usable / 2` (exact
halving: `usable ≤ 2 * newsize`, which for integers coincides with the
code's `usable - usable / 2 ≤ newsize` ceiling test), and
`(pointer + offset) % alignment = 0`; when any of the three fails the block
is relocated. -/
theorem claim_C3 (c : Config) (b : Base) (mem : Mem) (pp newsize alignment offset : Nat)
    (zero : Bool) (hα : c.intptr_size < alignment) :
    ((mi_heap_realloc_zero_aligned_at c b mem (some pp) newsize alignment offset zero).path =
        ReallocPath.inPlace ↔
      newsize ≤ b.usable_size pp ∧ b.usable_size pp ≤ 2 * newsize ∧
        (pp + offset) % alignment = 0) ∧
    ((mi_heap_realloc_zero_aligned_at c b mem (some pp) newsize alignment offset zero).path =
        ReallocPath.inPlace →
      (mi_heap_realloc_zero_aligned_at c b mem (some pp) newsize alignment offset zero).ret =
          some pp ∧
      (mi_heap_realloc_zero_aligned_at c b mem (some pp) newsize alignment offset zero).mem =
          mem ∧
      (mi_heap_realloc_zero_aligned_at c b mem (some pp) newsize alignment offset zero).freedOld =
          false) ∧
    (¬(newsize ≤ b.usable_size pp ∧ b.usable_size pp ≤ 2 * newsize ∧
        (pp + offset) % alignment = 0) →
      (mi_heap_realloc_zero_aligned_at c b mem (some pp) newsize alignment offset zero).path =
        ReallocPath.reloc) := by
  have hne : ¬ alignment ≤ c.intptr_size := by omega
  by_cases hg : newsize ≤ b.usable_size pp ∧
      b.usable_size pp - b.usable_size pp / 2 ≤ newsize ∧ (pp + offset) % alignment = 0
  · have hres : mi_heap_realloc_zero_aligned_at c b mem (some pp) newsize alignment offset zero =
        ⟨some pp, mem, false, ReallocPath.inPlace⟩ := by
      simp only [mi_heap_realloc_zero_aligned_at, if_neg hne, if_pos hg]
    rw [hres]
    exact ⟨⟨fun _ => ⟨hg.1, by omega, hg.2.2⟩, fun _ => rfl⟩,
      fun _ => ⟨rfl, rfl, rfl⟩, fun hcon => absurd ⟨hg.1, by omega, hg.2.2⟩ hcon⟩
  · cases hmal : mi_heap_malloc_aligned_at c b mem newsize alignment offset with
    | none =>
      have hres : mi_heap_realloc_zero_aligned_at c b mem (some pp) newsize alignment offset
          zero = ⟨none, mem, false, ReallocPath.reloc⟩ := by
        simp only [mi_heap_realloc_zero_aligned_at, if_neg hne, if_neg hg, hmal]
      rw [hres]
      exact ⟨⟨fun hcon => ReallocPath.noConfusion hcon,
        fun hcl => absurd ⟨hcl.1, by omega, hcl.2.2⟩ hg⟩,
        fun hcon => ReallocPath.noConfusion hcon, fun _ => rfl⟩
    | some pm =>
      obtain ⟨newp, m1⟩ := pm
      have hpath : (mi_heap_realloc_zero_aligned_at c b mem (some pp) newsize alignment offset
          zero).path = ReallocPath.reloc := by
        simp only [mi_heap_realloc_zero_aligned_at, if_neg hne, if_neg hg, hmal]
      exact ⟨⟨fun hcon => ReallocPath.noConfusion (hpath.symm.trans hcon),
        fun hcl => absurd ⟨hcl.1, by omega, hcl.2.2⟩ hg⟩,
        fun hcon => ReallocPath.noConfusion (hpath.symm.trans hcon), fun _ => hpath⟩

/-- Witness for C3: usable size 64, shrink to 40 with alignment 16 and
offset 0 reuses the block in place. -/
theorem claim_C3_witness :
    (mi_heap_realloc_zero_aligned_at cfg0 baseW memA (some 32) 40 16 0 false).path =
      ReallocPath.inPlace :=
  (claim_C3 cfg0 baseW memA 32 40 16 0 false (by decide)).1.mpr
    ⟨by decide, by decide, by decide⟩

/-- Claim C4: on the relocation path of an aligned reallocation, the old
block is freed only after the new aligned allocation has succeeded and the
first `min(old_usable, newsize)` bytes have been copied into it; on
allocation failure the operation returns null and leaves the old block and
all of memory untouched, performing no free.  The success side assumes the
fresh allocation does not disturb the old block's bytes and is disjoint
from it. -/
theorem claim_C4 (c : Config) (b : Base) (mem : Mem) (pp newsize alignment offset : Nat)
    (zero : Bool) (hα : c.intptr_size < alignment)
    (hguard : ¬(newsize ≤ b.usable_size pp ∧
        b.usable_size pp - b.usable_size pp / 2 ≤ newsize ∧
        (pp + offset) % alignment = 0)) :
    (mi_heap_malloc_aligned_at c b mem newsize alignment offset = none →
      (mi_heap_realloc_zero_aligned_at c b mem (some pp) newsize alignment offset zero).ret =
          none ∧
      (mi_heap_realloc_zero_aligned_at c b mem (some pp) newsize alignment offset zero).freedOld =
          false ∧
      (mi_heap_realloc_zero_aligned_at c b mem (some pp) newsize alignment offset zero).mem =
          mem) ∧
    (∀ newp m1, mi_heap_malloc_aligned_at c b mem newsize alignment offset = some (newp, m1) →
      (∀ a, pp ≤ a → a < pp + b.usable_size pp → m1 a = mem a) →
      (∀ a, pp ≤ a → a < pp + b.usable_size pp → ¬(newp ≤ a ∧ a < newp + newsize)) →
      (mi_heap_realloc_zero_aligned_at c b mem (some pp) newsize alignment offset zero).ret =
          some newp ∧
      (mi_heap_realloc_zero_aligned_at c b mem (some pp) newsize alignment offset zero).freedOld =
          true ∧
      ∀ i, i < min (b.usable_size pp) newsize →
        (mi_heap_realloc_zero_aligned_at c b mem (some pp) newsize alignment offset zero).mem
          (newp + i) = mem (pp + i)) := by
  have hne : ¬ alignment ≤ c.intptr_size := by omega
  constructor
  · intro hmal
    have hres : mi_heap_realloc_zero_aligned_at c b mem (some pp) newsize alignment offset
        zero = ⟨none, mem, false, ReallocPath.reloc⟩ := by
      simp only [mi_heap_realloc_zero_aligned_at, if_neg hne, if_neg hguard, hmal]
    rw [hres]
    exact ⟨rfl, rfl, rfl⟩
  · intro newp m1 hmal hpres hdisj
    simp only [mi_heap_realloc_zero_aligned_at, if_neg hne, if_neg hguard, hmal]
    refine ⟨trivial, trivial, ?_⟩
    intro i hi
    have hile : i < (if b.usable_size pp < newsize then b.usable_size pp else newsize) := by
      split <;> omega
    have hpi1 : pp ≤ pp + i := Nat.le_add_right _ _
    have hpi2 : pp + i < pp + b.usable_size pp := by omega
    have hd := hdisj (pp + i) hpi1 hpi2
    have hcancel : newp + i - newp = i := by omega
    rw [memcpyBytes_in (Nat.le_add_right _ _) (by omega), hcancel]
    by_cases hzc : zero = true ∧ b.usable_size pp < newsize
    · rw [if_pos hzc]
      by_cases hpz : b.page_is_zero newp = true
      · rw [if_pos hpz]
        exact hpres (pp + i) hpi1 hpi2
      · rw [if_neg hpz]
        set st := if c.intptr_size ≤ b.usable_size pp then
          b.usable_size pp - c.intptr_size else 0 with hst
        have hstle : st ≤ b.usable_size pp := by
          rw [hst]; split <;> omega
        rw [memset0_outside (by omega)]
        exact hpres (pp + i) hpi1 hpi2
    · rw [if_neg hzc]
      exact hpres (pp + i) hpi1 hpi2

/-- Witness for C4: shrinking a 64-byte block to 8 bytes relocates it to a
fresh block at address 0, which then holds the old contents; byte 3 of the
new block equals byte 163 of the old memory. -/
theorem claim_C4_witness :
    (mi_heap_realloc_zero_aligned_at cfg0 baseW memA (some 160) 8 16 0 false).ret = some 0 ∧
    (mi_heap_realloc_zero_aligned_at cfg0 baseW memA (some 160) 8 16 0 false).freedOld = true ∧
    (mi_heap_realloc_zero_aligned_at cfg0 baseW memA (some 160) 8 16 0 false).mem (0 + 3) =
      memA (160 + 3) := by
  have h := (claim_C4 cfg0 baseW memA 160 8 16 0 false (by decide) (by decide)).2 0 memA
    rfl (fun a _ _ => rfl) (fun a h1 _ hcon => by omega)
  exact ⟨h.1, h.2.1, h.2.2 3 (by decide)⟩

/-- Counterexample to claim C5: with size 16, alignment 8, offset 0 all the
natural-fit conditions hold (`offset = 0`, `alignment ≤ padded ≤ medium
ceiling`, padded size a multiple of the alignment), yet the operation is
served by the small-object free-block probe (returning the probed block at
address 40) and not by delegation to the base allocator's normal size-class
allocation (which would return address 1000): the probe precedes the
natural-fit test, contradicting the claimed evaluation order. -/
theorem claim_C5_counterexample :
    ((0 : Nat) = 0 ∧ 8 ≤ 16 + cfg0.padding_size ∧
      16 + cfg0.padding_size ≤ cfg0.medium_obj_size_max ∧
      (16 + cfg0.padding_size) % 8 = 0) ∧
    (mi_heap_malloc_zero_aligned_at cfg0 baseC5 memA 16 8 0 false).map Prod.fst = some 40 ∧
    (baseC5.heap_malloc_zero memA 16 false).map Prod.fst = some 1000 ∧
    (40 : Nat) ≠ 1000 :=
  ⟨by decide, rfl, rfl, by decide⟩

/-- Claim C5 (amended): the small-object free-block probe precedes the
natural-fit test.  When the natural-fit conditions hold (`offset = 0`,
`alignment ≤ padded_size ≤ medium_size_ceiling`, `padded_size` a multiple of
the power-of-two alignment, size representable) *and* the probe does not
fire (the padded size exceeds the small-object ceiling, or there is no free
block, or the free block fails the alignment test), the planner delegates
directly to the base allocator's normal size-class allocation, skipping all
carving logic. -/
theorem claim_C5_amended (c : Config) (b : Base) (mem : Mem) (size k offset : Nat)
    (zero : Bool)
    (hoff : offset = 0)
    (hfit : 2 ^ k ≤ size + c.padding_size)
    (hmed : size + c.padding_size ≤ c.medium_obj_size_max)
    (hmul : (size + c.padding_size) % 2 ^ k = 0)
    (hsz : size ≤ c.ptrdiff_max)
    (hprobe : ¬(size + c.padding_size ≤ c.small_size_max ∧
        ∃ fp, b.page_free (size + c.padding_size) = some fp ∧
          (fp + offset) % 2 ^ k = 0)) :
    mi_heap_malloc_zero_aligned_at c b mem size (2 ^ k) offset zero =
      b.heap_malloc_zero mem size zero := by
  have hk0 : (2 : Nat) ^ k ≠ 0 := by positivity
  have hfall : mi_heap_malloc_zero_aligned_at_fallback c b mem size (2 ^ k) offset zero =
      b.heap_malloc_zero mem size zero := by
    simp only [mi_heap_malloc_zero_aligned_at_fallback, and_mask_eq_mod]
    rw [if_pos ⟨hoff, hfit, hmed, hmul⟩]
  simp only [mi_heap_malloc_zero_aligned_at]
  rw [if_neg (by
    intro hval
    rcases hval with h0 | hp
    · exact hk0 h0
    · rw [mi_is_power_of_two_pow] at hp
      exact Bool.noConfusion hp)]
  rw [if_neg (by omega)]
  split
  · next hc =>
    cases hpf : b.page_free (size + c.padding_size) with
    | none => exact hfall
    | some fp =>
      have hnal : ¬ ((fp + offset) &&& (2 ^ k - 1) = 0) := by
        rw [and_mask_eq_mod]
        intro hal
        exact hprobe ⟨hc.1, fp, hpf, hal⟩
      simp only [if_neg hnal]
      exact hfall
  · exact hfall

/-- Witness for the amended C5: with the probe missing (`page_free` empty),
a natural-fit request (size 8, alignment 8, offset 0) is served by the
normal size-class allocator. -/
theorem claim_C5_witness :
    mi_heap_malloc_zero_aligned_at cfg0 baseW memA 8 (2 ^ 3) 0 false =
      baseW.heap_malloc_zero memA 8 false :=
  claim_C5_amended cfg0 baseW memA 8 3 0 false rfl (by decide) (by decide) (by decide)
    (by decide) (fun hcon => by
      obtain ⟨-, fp, hfp, -⟩ := hcon
      simp [baseW] at hfp)

/-- Claim C6: for every call to the aligned allocation primitive with
`alignment = 0`, with an alignment that is not a power of two, or with a
size exceeding the representability ceiling `PTRDIFF_MAX`, the operation
returns null; the result is `none` for every base allocator `b`, so the
base allocator is never consulted. -/
theorem claim_C6 (c : Config) (b : Base) (mem : Mem) (size alignment offset : Nat)
    (zero : Bool)
    (h : alignment = 0 ∨ (∀ j, alignment ≠ 2 ^ j) ∨ c.ptrdiff_max < size) :
    mi_heap_malloc_zero_aligned_at c b mem size alignment offset zero = none := by
  simp only [mi_heap_malloc_zero_aligned_at]
  rcases h with h0 | hnp | hsz
  · rw [if_pos (Or.inl h0)]
  · by_cases h0 : alignment = 0
    · rw [if_pos (Or.inl h0)]
    · rw [if_pos (Or.inr (mi_is_power_of_two_eq_false h0 hnp))]
  · by_cases hval : alignment = 0 ∨ mi_is_power_of_two alignment = false
    · rw [if_pos hval]
    · rw [if_neg hval, if_pos hsz]

/-- Witness for C6: a request of `2^63` bytes exceeds `PTRDIFF_MAX` and is
rejected. -/
theorem claim_C6_witness :
    mi_heap_malloc_zero_aligned_at cfg0 baseW memA (2 ^ 63) 8 0 false = none :=
  claim_C6 cfg0 baseW memA (2 ^ 63) 8 0 false (Or.inr (Or.inr (by decide)))

/-- Claim C7: for every aligned allocation request whose alignment exceeds
the maximum supported alignment `MI_ALIGNMENT_MAX` and whose offset is
nonzero, the operation returns null; the result is `none` for every base
allocator `b`, so no memory is requested from it.  (`hgeom` is the header
geometry fact `MI_SMALL_SIZE_MAX ≤ MI_ALIGNMENT_MAX`, which rules the
small-object probe out for such alignments.) -/
theorem claim_C7 (c : Config) (b : Base) (mem : Mem) (size alignment offset : Nat)
    (zero : Bool)
    (hgeom : c.small_size_max ≤ c.alignment_max)
    (hbig : c.alignment_max < alignment)
    (hoff : offset ≠ 0) :
    mi_heap_malloc_zero_aligned_at c b mem size alignment offset zero = none := by
  have hfall : mi_heap_malloc_zero_aligned_at_fallback c b mem size alignment offset zero
      = none := by
    simp only [mi_heap_malloc_zero_aligned_at_fallback]
    rw [if_neg (fun hc => hoff hc.1), if_pos hbig, if_pos hoff]
  simp only [mi_heap_malloc_zero_aligned_at]
  by_cases hval : alignment = 0 ∨ mi_is_power_of_two alignment = false
  · rw [if_pos hval]
  · rw [if_neg hval]
    by_cases hsz : c.ptrdiff_max < size
    · rw [if_pos hsz]
    · rw [if_neg hsz]
      rw [if_neg (fun hc : size + c.padding_size ≤ c.small_size_max ∧
        alignment ≤ size + c.padding_size => by omega)]
      exact hfall

/-- Witness for C7: alignment `2^25` (above the `2^24` ceiling) with offset
1 is rejected. -/
theorem claim_C7_witness :
    mi_heap_malloc_zero_aligned_at cfg0 baseW memA 10 (2 ^ 25) 1 false = none :=
  claim_C7 cfg0 baseW memA 10 (2 ^ 25) 1 false (by decide) (by decide) (by decide)

/-- Claim C8: for every counted variant (counted-zero-allocate-aligned and
counted-rezero-reallocate-aligned, with and without explicit offset), if
`count * size` overflows the size representation, the operation returns
null — for every base allocator `b`, with memory untouched and no free — so
no allocation or reallocation logic is invoked. -/
theorem claim_C8 (c : Config) (b : Base) (mem : Mem) (p : Option Nat)
    (count size alignment offset : Nat)
    (hov : c.size_max < count * size) :
    mi_heap_calloc_aligned_at c b mem count size alignment offset = none ∧
    mi_heap_calloc_aligned c b mem count size alignment = none ∧
    ((mi_heap_recalloc_aligned_at c b mem p count size alignment offset).ret = none ∧
      (mi_heap_recalloc_aligned_at c b mem p count size alignment offset).mem = mem ∧
      (mi_heap_recalloc_aligned_at c b mem p count size alignment offset).freedOld = false ∧
      (mi_heap_recalloc_aligned_at c b mem p count size alignment offset).path =
        ReallocPath.rejectedOverflow) ∧
    ((mi_heap_recalloc_aligned c b mem p count size alignment).ret = none ∧
      (mi_heap_recalloc_aligned c b mem p count size alignment).mem = mem ∧
      (mi_heap_recalloc_aligned c b mem p count size alignment).freedOld = false ∧
      (mi_heap_recalloc_aligned c b mem p count size alignment).path =
        ReallocPath.rejectedOverflow) := by
  have hcs : mi_count_size_overflow c count size =
      (true, count * size % (c.size_max + 1)) := by
    simp only [mi_count_size_overflow]
    rw [if_pos hov]
  have h1 : mi_heap_calloc_aligned_at c b mem count size alignment offset = none := by
    simp only [mi_heap_calloc_aligned_at, hcs]
    rw [if_pos trivial]
  have h2 : mi_heap_calloc_aligned c b mem count size alignment = none := by
    simp only [mi_heap_calloc_aligned, mi_heap_calloc_aligned_at, hcs]
    rw [if_pos trivial]
  have h3 : mi_heap_recalloc_aligned_at c b mem p count size alignment offset =
      ⟨none, mem, false, ReallocPath.rejectedOverflow⟩ := by
    simp only [mi_heap_recalloc_aligned_at, hcs]
    rw [if_pos trivial]
  have h4 : mi_heap_recalloc_aligned c b mem p count size alignment =
      ⟨none, mem, false, ReallocPath.rejectedOverflow⟩ := by
    simp only [mi_heap_recalloc_aligned, hcs]
    rw [if_pos trivial]
  rw [h3, h4]
  exact ⟨h1, h2, ⟨rfl, rfl, rfl, rfl⟩, ⟨rfl, rfl, rfl, rfl⟩⟩

/-- Witness for C8: `2^32 * 2^32` overflows the 64-bit size representation. -/
theorem claim_C8_witness :
    mi_heap_calloc_aligned_at cfg0 baseW memA (2 ^ 32) (2 ^ 32) 8 0 = none :=
  (claim_C8 cfg0 baseW memA (some 7) (2 ^ 32) (2 ^ 32) 8 0 (by decide)).1

/-- Counterexample to claim C9: on the offset-free aligned reallocator with
old pointer 3, alignment 16 and usable size 100, shrinking to 10 bytes
relocates the block and returns address 13, with
`13 % 16 = 13 ≠ 3 = 3 % 16`: a successful result is *not* congruent to the
old pointer modulo the alignment (it is congruent to its negation, since
the derived offset is `old % alignment` and the allocation contract is
`(result + offset) % alignment = 0`). -/
theorem claim_C9_counterexample :
    (mi_heap_realloc_zero_aligned cfg0 baseC9 memA (some 3) 10 16 false).ret = some 13 ∧
    13 % 16 ≠ 3 % 16 :=
  ⟨rfl, by decide⟩

/-- Claim C9 (amended): for the aligned reallocators without an explicit
offset, when the alignment `2 ^ k` exceeds the natural pointer alignment
and the existing pointer is non-null, the offset used is
`existing_pointer % alignment`; consequently every successful result `q`
satisfies `(q + existing_pointer % alignment) % alignment = 0` — that is,
`q` is congruent to the *negation* of the old pointer modulo the alignment,
not to the old pointer — and `q % alignment = 0` is not guaranteed unless
the old pointer was already aligned (in which case the derived offset is 0
and the contract gives exactly `q % alignment = 0`). -/
theorem claim_C9_amended (c : Config) (b : Base) (mem : Mem) (pp newsize k : Nat)
    (zero : Bool)
    (hα : c.intptr_size < 2 ^ k)
    (hnat : ∀ q m', b.heap_malloc_zero mem newsize false = some (q, m') →
        (newsize + c.padding_size) % 2 ^ k = 0 → q % 2 ^ k = 0)
    (hpm : ∀ m z fp, b.page_free (newsize + c.padding_size) = some fp →
        (b.page_malloc m (newsize + c.padding_size) z).1 = fp) :
    (mi_heap_realloc_zero_aligned c b mem (some pp) newsize (2 ^ k) zero =
      mi_heap_realloc_zero_aligned_at c b mem (some pp) newsize (2 ^ k) (pp % 2 ^ k) zero) ∧
    (∀ q, (mi_heap_realloc_zero_aligned c b mem (some pp) newsize (2 ^ k) zero).ret = some q →
      (q + pp % 2 ^ k) % 2 ^ k = 0) := by
  have hne : ¬ 2 ^ k ≤ c.intptr_size := by omega
  have heq : mi_heap_realloc_zero_aligned c b mem (some pp) newsize (2 ^ k) zero =
      mi_heap_realloc_zero_aligned_at c b mem (some pp) newsize (2 ^ k) (pp % 2 ^ k) zero := by
    simp only [mi_heap_realloc_zero_aligned, if_neg hne, Option.getD_some]
  refine ⟨heq, ?_⟩
  rw [heq]
  by_cases hg : newsize ≤ b.usable_size pp ∧
      b.usable_size pp - b.usable_size pp / 2 ≤ newsize ∧ (pp + pp % 2 ^ k) % 2 ^ k = 0
  · have hres : mi_heap_realloc_zero_aligned_at c b mem (some pp) newsize (2 ^ k)
        (pp % 2 ^ k) zero = ⟨some pp, mem, false, ReallocPath.inPlace⟩ := by
      simp only [mi_heap_realloc_zero_aligned_at, if_neg hne, if_pos hg]
    rw [hres]
    intro q hq
    have hpq : pp = q := by simpa using hq
    rw [← hpq]
    exact hg.2.2
  · cases hmal : mi_heap_malloc_aligned_at c b mem newsize (2 ^ k) (pp % 2 ^ k) with
    | none =>
      have hres : mi_heap_realloc_zero_aligned_at c b mem (some pp) newsize (2 ^ k)
          (pp % 2 ^ k) zero = ⟨none, mem, false, ReallocPath.reloc⟩ := by
        simp only [mi_heap_realloc_zero_aligned_at, if_neg hne, if_neg hg, hmal]
      rw [hres]
      intro q hq
      exact absurd hq (by simp)
    | some pm =>
      obtain ⟨newp, m1⟩ := pm
      intro q hq
      have hret : (mi_heap_realloc_zero_aligned_at c b mem (some pp) newsize (2 ^ k)
          (pp % 2 ^ k) zero).ret = some newp := by
        simp only [mi_heap_realloc_zero_aligned_at, if_neg hne, if_neg hg, hmal]
      rw [hret] at hq
      have hq' : newp = q := by simpa using hq
      rw [← hq']
      exact malloc_zero_aligned_at_aligned hnat hpm hmal

/-- Witness for the amended C9: old pointer 3, alignment `2^4`: relocation
returns 13 and `(13 + 3 % 16) % 16 = 0`. -/
theorem claim_C9_witness : (13 + 3 % 2 ^ 4) % 2 ^ 4 = 0 :=
  (claim_C9_amended cfg0 baseC9 memA 3 10 4 false (by decide)
    (fun q m' h _ => by
      simp only [baseC9, baseW, Option.some.injEq, Prod.mk.injEq] at h
      omega)
    (fun m z fp h => by simp [baseC9, baseW] at h)).2 13 rfl

/-- Claim C10: for every call to an aligned reallocator with alignment at
most the machine word size — including `alignment = 0` and non-power-of-two
values — the operation delegates directly to the unaligned resize primitive
with no validation of the alignment: both `mi_heap_realloc_zero_aligned_at`
and `mi_heap_realloc_zero_aligned` take the delegated path and return
exactly the primitive's result, so they never return null on account of an
invalid alignment. -/
theorem claim_C10 (c : Config) (b : Base) (mem : Mem) (p : Option Nat)
    (newsize alignment offset : Nat) (zero : Bool)
    (hα : alignment ≤ c.intptr_size) :
    ((mi_heap_realloc_zero_aligned_at c b mem p newsize alignment offset zero).path =
        ReallocPath.delegated ∧
      (mi_heap_realloc_zero_aligned_at c b mem p newsize alignment offset zero).ret =
        (b.heap_realloc_zero mem p newsize zero).map Prod.fst) ∧
    ((mi_heap_realloc_zero_aligned c b mem p newsize alignment zero).path =
        ReallocPath.delegated ∧
      (mi_heap_realloc_zero_aligned c b mem p newsize alignment zero).ret =
        (b.heap_realloc_zero mem p newsize zero).map Prod.fst) := by
  cases hE : b.heap_realloc_zero mem p newsize zero with
  | none =>
    have hres1 : mi_heap_realloc_zero_aligned_at c b mem p newsize alignment offset zero =
        ⟨none, mem, false, ReallocPath.delegated⟩ := by
      simp only [mi_heap_realloc_zero_aligned_at, if_pos hα, hE]
    have hres2 : mi_heap_realloc_zero_aligned c b mem p newsize alignment zero =
        ⟨none, mem, false, ReallocPath.delegated⟩ := by
      simp only [mi_heap_realloc_zero_aligned, if_pos hα, hE]
    rw [hres1, hres2]
    exact ⟨⟨rfl, rfl⟩, ⟨rfl, rfl⟩⟩
  | some qm =>
    obtain ⟨q0, m0⟩ := qm
    have hres1 : mi_heap_realloc_zero_aligned_at c b mem p newsize alignment offset zero =
        ⟨some q0, m0, false, ReallocPath.delegated⟩ := by
      simp only [mi_heap_realloc_zero_aligned_at, if_pos hα, hE]
    have hres2 : mi_heap_realloc_zero_aligned c b mem p newsize alignment zero =
        ⟨some q0, m0, false, ReallocPath.delegated⟩ := by
      simp only [mi_heap_realloc_zero_aligned, if_pos hα, hE]
    rw [hres1, hres2]
    exact ⟨⟨rfl, rfl⟩, ⟨rfl, rfl⟩⟩

/-- Witness for C10: alignment 4 (at most the 8-byte word size) delegates. -/
theorem claim_C10_witness :
    (mi_heap_realloc_zero_aligned_at cfg0 baseW memA (some 5) 12 4 0 false).path =
      ReallocPath.delegated :=
  (claim_C10 cfg0 baseW memA (some 5) 12 4 0 false (by decide)).1.1

end MimallocAligned
